import Mathlib

/-!
Verification of the locator-wiring subsystem of the `ocomone` repository
(`ocomone_selene/wiring.py` and `ocomone_selene/bys.py`).

The Python code is shallowly embedded: dictionaries become ordered association
lists (CPython dicts preserve insertion order and update values in place),
classes become an abstract type with a boolean subclass relation, closures
created by the wiring machinery are defunctionalised into data that a separate
interpretation function executes, and raising code returns `Except`.
-/

namespace Ocomone

/-! ### Python dicts as insertion-ordered association lists -/

/-- Lookup in a Python dict: the value stored for the first (and only) matching
key, `none` when the key is absent. -/
def dictGet {α β : Type} [DecidableEq α] : List (α × β) → α → Option β
  | [], _ => none
  | (k', v) :: rest, k => if k' = k then some v else dictGet rest k

/-- Assignment `d[k] = v` in a Python dict: an existing key keeps its position
and gets the new value, a fresh key is appended. -/
def dictSet {α β : Type} [DecidableEq α] : List (α × β) → α → β → List (α × β)
  | [], k, v => [(k, v)]
  | (k', v') :: rest, k, v =>
      if k' = k then (k, v) :: rest else (k', v') :: dictSet rest k v

/-! ### Locators, elements and strategies -/

/-- A locator: (by-tag, selector) pair, as produced by the strategy functions. -/
abbrev Locator := String × String

/-- A live element handed back by the browser-automation layer. Elements are
identified by how they were obtained; `wrapped` covers results of wrapper-class
construction in `__convert_entity`. -/
inductive Elem
  | fromLocator (loc : Locator)
  | wrapped (tag : String) (inner : Elem)
deriving DecidableEq

/-- Oracle for the external browser layer used by `bys.by_label`:
`elementIn none loc` is `browser.element(loc)`, `elementIn (some p) loc` is
`p.element(loc)`, and `getAttr e a` is `e.get_attribute(a)`. -/
structure Browser where
  elementIn : Option Elem → Locator → Elem
  getAttr : Elem → String → Option String

/-- `bys.by_id`: find element by exact ID (returns `(By.ID, element_id)`). -/
def by_id (element_id : String) : Locator := ("id", element_id)

/-- External `selene.bys.by_name`; the exact selector text built by the external
library is irrelevant to every claim, so the pair is modelled as tagged. -/
def by_name (s : String) : Locator := ("name", s)

/-- External `selene.bys.by_text` (modelled as a tagged pair). -/
def by_text (s : String) : Locator := ("text", s)

/-- External `selene.bys.by_partial_text` (modelled as a tagged pair). -/
def by_partial_text (s : String) : Locator := ("partial text", s)

/-- External `selene.bys.by_link_text` (modelled as a tagged pair). -/
def by_link_text (s : String) : Locator := ("link text", s)

/-- External `selene.bys.by_css` (returns `(By.CSS_SELECTOR, selector)`). -/
def by_css (s : String) : Locator := ("css selector", s)

/-- `bys.by_label`: locate the label by partial text (globally, or under the
given parent element), read its `@for` attribute, raise TypeError when the
attribute is absent, otherwise locate by that id. -/
def by_label (br : Browser) (label_text : String) (parent : Option Elem) :
    Except String Locator :=
  match br.getAttr (br.elementIn parent (by_partial_text label_text)) "for" with
  | none => .error "TypeError: label has no attribute @for"
  | some target_id => .ok (by_id target_id)

/-- Defunctionalised strategy functions (`GetLocator` values): the module-level
defaults, the per-instance closure `lambda text: by_label(text, root_element)`
registered after construction, and arbitrary user functions. -/
inductive GetLoc
  | gl_by_id
  | gl_by_name
  | gl_by_text
  | gl_by_partial_text
  | gl_by_link_text
  | gl_by_css
  | labelClosure (root : Option Elem)
  | custom (f : String → Locator)

/-- Apply a strategy function to a selector string. Only the label closure can
raise (inside `by_label`). -/
def applyGetLoc (br : Browser) : GetLoc → String → Except String Locator
  | .gl_by_id, s => .ok (by_id s)
  | .gl_by_name, s => .ok (by_name s)
  | .gl_by_text, s => .ok (by_text s)
  | .gl_by_partial_text, s => .ok (by_partial_text s)
  | .gl_by_link_text, s => .ok (by_link_text s)
  | .gl_by_css, s => .ok (by_css s)
  | .labelClosure root, s => by_label br s root
  | .custom f, s => .ok (f s)

/-- A value stored in the `_STRATEGIES` dict. Besides the intended strategy
functions (`.fn`) and the `None` marker used for "label" (`.pynone`), a stray
string can end up stored by the buggy `register_strategy` below, so plain
strings are representable too. -/
inductive StratVal
  | fn (g : GetLoc)
  | pystr (s : String)
  | pynone

/-- The `_STRATEGIES` dictionary type. -/
abbrev StratDict := List (String × StratVal)

/-- The module-level `_STRATEGIES` literal from `wiring.py`. -/
def _STRATEGIES : StratDict :=
  [("id", .fn .gl_by_id),
   ("name", .fn .gl_by_name),
   ("label", .pynone),
   ("text", .fn .gl_by_text),
   ("partial", .fn .gl_by_partial_text),
   ("link", .fn .gl_by_link_text),
   ("css", .fn .gl_by_css)]

/-- The body of the closure returned by `_convert_locator(strategy, locator)`:
`_StrategyDict.__getitem__` hands back `__impossible` for a missing key or a
`None` value, and `__impossible` raises NotImplementedError the moment
`_convert` calls it; a non-callable stored value (a string) raises TypeError
when called. -/
def _convert (br : Browser) (strats : StratDict) (strategy locator : String) :
    Except String Locator :=
  match dictGet strats strategy with
  | none => .error ("NotImplementedError: " ++ strategy ++ " strategy is not defined")
  | some .pynone => .error ("NotImplementedError: " ++ strategy ++ " strategy is not defined")
  | some (.pystr _) => .error "TypeError: str object is not callable"
  | some (.fn g) => applyGetLoc br g locator

/-! ### The module-level `register_strategy`

The source reads `_STRATEGIES.update({name, strategy})` — a *set* literal, not
the dict `{name: strategy}`. `dict.update` with a non-mapping iterates it and
unpacks every element as a key/value pair: a 2-character string unpacks into its
two characters (each a 1-character string), any other string raises ValueError,
and a function object is not iterable at all, raising TypeError. Mutations made
before the failing element persist, because the update operates in place. -/

/-- An element of the two-element set literal `{name, strategy}`. -/
inductive SetElem
  | pystr (s : String)
  | pyfn (g : GetLoc)

/-- `dict.update` over a non-mapping iterable of would-be pairs; returns the
(partially) mutated dict together with the raised error, if any. -/
def dictUpdateSeq : StratDict → List SetElem → StratDict × Option String
  | d, [] => (d, none)
  | d, .pystr s :: rest =>
      match s.data with
      | [a, b] => dictUpdateSeq (dictSet d (String.mk [a]) (.pystr (String.mk [b]))) rest
      | _ => (d, some "ValueError: dictionary update sequence element has wrong length")
  | d, .pyfn _ :: _ =>
      (d, some "TypeError: cannot convert dictionary update sequence element to a sequence")

/-- `register_strategy(name, strategy)` from `wiring.py`:
`_STRATEGIES.update({name, strategy})`. The iteration order of the two-element
set is unspecified; `firstIsName` selects which element comes first. -/
def register_strategy (d : StratDict) (name : String) (strategy : GetLoc)
    (firstIsName : Bool) : StratDict × Option String :=
  dictUpdateSeq d
    (if firstIsName then [.pystr name, .pyfn strategy] else [.pyfn strategy, .pystr name])

/-! ### Locator source loaders -/

/-- Defunctionalised closure `_convert_locator(strategy, locator)`: the data it
captures. `_convert` above interprets it against a strategy dict. -/
structure ConvertLocator where
  strategy : String
  selector : String
deriving DecidableEq

/-- Loop of the dict comprehension in `WiredDecorator.__parse_csv`: each CSV row
`field:strategy:selector` maps the field to `_convert_locator(strategy,
selector)`. An empty row raises IndexError at `mapping[0]`; a row with any other
cell count makes the starred call `_convert_locator(*mapping[1:])` raise a
TypeError (wrong arity). -/
def parse_csv_go (acc : List (String × ConvertLocator)) :
    List (List String) → Except String (List (String × ConvertLocator))
  | [] => .ok acc
  | [] :: _ => .error "IndexError: list index out of range"
  | [f, s, l] :: rest => parse_csv_go (dictSet acc f ⟨s, l⟩) rest
  | _ :: _ => .error "TypeError: _convert_locator arity mismatch"

/-- `WiredDecorator.__parse_csv`, starting from the empty dict. -/
def parse_csv (rows : List (List String)) :
    Except String (List (String × ConvertLocator)) :=
  parse_csv_go [] rows

/-- A value of the YAML mapping loaded by `__parse_yml`: a bare
`"strategy:selector"` string or a mapping of strategies to selectors. -/
inductive YamlEntry
  | ystr (s : String)
  | ymap (entries : List (String × String))
deriving DecidableEq

/-- `WiredDecorator.__parse_yml._parse_yml_entry`: `list(entry.items())[0]`.
A mapping yields its first key/value pair as a plain tuple; a bare string has no
`.items` attribute and raises AttributeError; an empty mapping raises
IndexError. -/
def _parse_yml_entry : YamlEntry → Except String (String × String)
  | .ymap ((k, v) :: _) => .ok (k, v)
  | .ymap [] => .error "IndexError: list index out of range"
  | .ystr _ => .error "AttributeError: str object has no attribute items"

/-- `WiredDecorator.__parse_yml`: after `yaml.load`, the dict comprehension
iterates `mappings.items` — the bound method object itself; the call parentheses
are missing in the source — which raises TypeError before `_parse_yml_entry`
processes any entry, for every loaded mapping whatsoever. -/
def parse_yml (_mappings : List (String × YamlEntry)) :
    Except String (List (String × ConvertLocator)) :=
  .error "TypeError: builtin function or method object is not iterable"

/-! ### The setter registry

Python classes are an abstract type `Cls` with decidable equality; `issubclass`
is a boolean relation `sub` (reflexive, transitive and antisymmetric in Python,
which the theorems assume explicitly where they need it). -/

section SetterRegistry

variable {Cls : Type} [DecidableEq Cls] {S : Type}

/-- `_is_subclass(cls, types)` applied to a tuple of classes: true iff `cls` is
a subclass of some member (for plain classes `issubclass` never raises, so the
fallback branch of the source function is not taken). -/
def _is_subclass (sub : Cls → Cls → Bool) (c : Cls) (types : List Cls) : Bool :=
  types.any (sub c)

/-- `__sort_classes._is_sorted`: scans adjacent entries and reports unsorted as
soon as an entry is a subclass of its predecessor. The initial previous element
is the bare metaclass `type`, of which no ordinary class is a subclass
(modelled by `none`). -/
def _is_sorted (sub : Cls → Cls → Bool) : Option Cls → List Cls → Bool
  | _, [] => true
  | none, c :: rest => _is_sorted sub (some c) rest
  | some p, c :: rest => if sub c p then false else _is_sorted sub (some c) rest

/-- One pass of the `for index in range(length - 1)` loop inside
`__sort_classes`: adjacent entries are swapped in place whenever the later one
is a subclass of the earlier one, and a swapped element keeps bubbling. -/
def bubblePass (sub : Cls → Cls → Bool) : List Cls → List Cls
  | [] => []
  | [c] => [c]
  | a :: b :: rest =>
      if sub b a then b :: bubblePass sub (a :: rest) else a :: bubblePass sub (b :: rest)

/-- `__sort_classes`: bubble passes repeat until `_is_sorted`. The loop always
terminates because an unsorted pass performs at least one swap and every swap
strictly decreases the number of inverted pairs; `fuel` bounds the number of
passes. Every call made by `_register_class` in this development happens on an
already-sorted list, so the bound is never reached. -/
def sortClasses (sub : Cls → Cls → Bool) : Nat → List Cls → List Cls
  | 0, l => l
  | fuel + 1, l =>
      if _is_sorted sub none l then l else sortClasses sub fuel (bubblePass sub l)

/-- The pair of module-level globals `__WIRED_CLASS_ORDER` (the ordered type
list) and `__WIRED_CLASS_SETTERS` (type-to-setter dict). -/
structure SetterRegistry (Cls S : Type) where
  order : List Cls
  setters : List (Cls × S)

/-- The empty initial registry state. -/
def emptyRegistry : SetterRegistry Cls S := ⟨[], []⟩

/-- `__wco.insert(__wco.index(existing_cls), cls)` for the first existing class
that `cls` is a subclass of; when none matches the list is returned unchanged
(that case is unreachable under the guard in `_register_class`). -/
def insertBeforeFirstSuper (sub : Cls → Cls → Bool) (cls : Cls) : List Cls → List Cls
  | [] => []
  | e :: rest =>
      if sub cls e then cls :: e :: rest else e :: insertBeforeFirstSuper sub cls rest

/-- `_register_class(cls, setter)`: sort the order list, return early when the
class is already registered (note: without touching its stored setter), record
the setter, then append the class when it subclasses no existing entry or
insert it before the first existing entry it subclasses. -/
def _register_class (sub : Cls → Cls → Bool) (st : SetterRegistry Cls S)
    (cls : Cls) (setter : S) : SetterRegistry Cls S :=
  let order := sortClasses sub (st.order.length * st.order.length + 1) st.order
  if cls ∈ order then { st with order := order }
  else
    let setters := dictSet st.setters cls setter
    if _is_subclass sub cls order then ⟨insertBeforeFirstSuper sub cls order, setters⟩
    else ⟨order ++ [cls], setters⟩

/-- A sequence of registration calls (`register_setter` and
`register_without_setter` both reduce to `_register_class`; the payload `S`
stands for the `_real_setter` closure built around the given method). -/
def applyOps (sub : Cls → Cls → Bool) :
    SetterRegistry Cls S → List (Cls × S) → SetterRegistry Cls S
  | st, [] => st
  | st, (c, s) :: rest => applyOps sub (_register_class sub st c s) rest

/-- The scan in `_to_property`: the first class of `__WIRED_CLASS_ORDER` that
the declared field class is a subclass of. -/
def resolveSetterCls (sub : Cls → Cls → Bool) (order : List Cls) (field_cls : Cls) :
    Option Cls :=
  order.find? (fun entry => sub field_cls entry)

end SetterRegistry

/-! ### Runtime behaviour of compiled properties -/

/-- The call log of a wired instance's collaborators: arguments of
`self.element(...)`, of `self.elements(...)`, and invocations of the underlying
registered assignment method (element acted on, value assigned). -/
structure Trace where
  elemCalls : List Locator
  collCalls : List Locator
  setCalls : List (Elem × String)
deriving DecidableEq

/-- A wired instance: its own `strategies` dict entry when one exists in its
instance dict (ordinarily absent, so attribute lookup falls through to the
class), its `root_element` when present, and the `__cached_<field>` attributes
written by `_cached_getter`. -/
structure WInstance where
  ownStrategies : Option StratDict
  root : Option Elem
  cache : List (String × Elem)

/-- `__convert_entity(element, cls)`: `isinst` models `isinstance(element,
cls)` and `construct` models `cls(element)`, with `none` for a constructor that
raises TypeError on a lone element argument. -/
def __convert_entity (isinst : Elem → Bool) (construct : Elem → Option Elem)
    (e : Elem) : Except String Elem :=
  if isinst e then .ok e
  else
    match construct e with
    | some e2 => .ok e2
    | none => .error "TypeError: impossible to wrap element"

section Wiring

variable {Cls : Type} [DecidableEq Cls]

/-- The data captured by a property compiled for one wired field: the field
name, its declared class, the defunctionalised `_convert_locator` closure,
whether `_wired_getter` took the iterable branch, and the registered class
chosen for `__property_setter`. -/
structure WiredProp (Cls : Type) where
  field_name : String
  field_cls : Cls
  loc : ConvertLocator
  isIter : Bool
  setter_cls : Cls
deriving DecidableEq

/-- `_to_property(field_name, field_cls, getter)`: scan `__WIRED_CLASS_ORDER`
for the first registered class the field class is a subclass of; when found,
the result is a property carrying the getter data and that class for the
setter; when no registered class matches, the result is Python `None`.
`iter` models `_is_subclass(field_cls, Iterable)` from `_wired_getter`. -/
def _to_property (sub : Cls → Cls → Bool) (order : List Cls) (iter : Cls → Bool)
    (field_name : String) (field_cls : Cls) (loc : ConvertLocator) :
    Option (WiredProp Cls) :=
  (resolveSetterCls sub order field_cls).map
    (fun c => ⟨field_name, field_cls, loc, iter field_cls, c⟩)

/-- A class attribute as the wiring loop sees it: an attribute that already had
a value (skipped), a property installed by wiring, or the `None` installed when
`_to_property` found no matching setter class. -/
inductive ClassAttr (Cls : Type)
  | assigned
  | prop (p : WiredProp Cls)
  | pynone

/-- The mutable state of a class being wired: its `__name__`, its `__wired__`
marker when the attribute is present (possibly inherited), its
`__annotations__`, its attribute dict, and its `strategies` class attribute
when set. -/
structure ClassState (Cls : Type) where
  name : String
  wiredMarker : Option String
  anns : List (String × Cls)
  attrs : List (String × ClassAttr Cls)
  strategies : Option StratDict

/-- `hasattr(wrapped, attr)` over the modelled attribute dict. -/
def hasattrCS (cs : ClassState Cls) (attr : String) : Bool :=
  (dictGet cs.attrs attr).isSome

/-- Errors raised inside the wiring driver. -/
inductive WireError
  | missingField (attr : String) (locator_file : String)
  | pyError (msg : String)
deriving DecidableEq

/-- The value `setattr` installs for one field: the compiled property, or
Python `None` when `_to_property` found no registered setter class. -/
def compiledAttr (sub : Cls → Cls → Bool) (order : List Cls) (iter : Cls → Bool)
    (attr : String) (attr_cls : Cls) (loc : ConvertLocator) : ClassAttr Cls :=
  match _to_property sub order iter attr attr_cls loc with
  | some p => ClassAttr.prop p
  | none => ClassAttr.pynone

/-- The `for attr in annotations` loop of `_wire_cls`: skip attributes that
already have a value, raise `KeyError("Missing ...")` when the locator dict
has no entry for the field, otherwise compile the property (possibly `None`)
and install it with `setattr`. -/
def wireLoop (sub : Cls → Cls → Bool) (order : List Cls) (iter : Cls → Bool)
    (locator_file : String) (locators : List (String × ConvertLocator)) :
    List (String × Cls) → ClassState Cls → Except WireError (ClassState Cls)
  | [], cs => .ok cs
  | (attr, attr_cls) :: rest, cs =>
      if hasattrCS cs attr then
        wireLoop sub order iter locator_file locators rest cs
      else
        match dictGet locators attr with
        | none => .error (.missingField attr locator_file)
        | some loc =>
            wireLoop sub order iter locator_file locators rest
              { cs with attrs := dictSet cs.attrs attr (compiledAttr sub order iter attr attr_cls loc) }

/-- `_wire_cls` from `WiredDecorator.__call__._wired`: return immediately when
the `__wired__` marker equals the class's own name, otherwise snapshot the
global strategies into the class, process every annotated attribute, and set
the marker. -/
def wireCls (sub : Cls → Cls → Bool) (order : List Cls) (iter : Cls → Bool)
    (globalStrats : StratDict) (locator_file : String)
    (locators : List (String × ConvertLocator)) (cs : ClassState Cls) :
    Except WireError (ClassState Cls) :=
  if cs.wiredMarker = some cs.name then .ok cs
  else
    match wireLoop sub order iter locator_file locators cs.anns
        { cs with strategies := some globalStrats } with
    | .error e => .error e
    | .ok cs2 => .ok { cs2 with wiredMarker := some cs2.name }

/-- `Wireable.register_strategy` called on an instance:
`self.strategies.update(...)`. Attribute lookup finds the instance's own dict
entry when present, else the class attribute, and `update` then mutates the
dict object it found in place — for an ordinary wired instance that is the
class-level dict shared by every instance of the class. -/
def instRegisterStrategy (cs : ClassState Cls) (self : WInstance) (name : String)
    (g : GetLoc) : Except String (ClassState Cls × WInstance) :=
  match self.ownStrategies with
  | some d => .ok (cs, { self with ownStrategies := some (dictSet d name (.fn g)) })
  | none =>
      match cs.strategies with
      | none => .error "AttributeError: strategies"
      | some d => .ok ({ cs with strategies := some (dictSet d name (.fn g)) }, self)

/-- The tail of `_wired` after `_wire_cls`: construct the instance (its
`root_element`, when the constructor gave it one, is `root`), then register the
"label" strategy closed over that root element. -/
def constructAndLabel (cs : ClassState Cls) (root : Option Elem) :
    Except String (ClassState Cls × WInstance) :=
  instRegisterStrategy cs ⟨none, root, []⟩ "label" (.labelClosure root)

/-- `WiredDecorator.__call__._wired`: wire the class, then construct the
instance and bind its label strategy. An error from `_wire_cls` propagates
before any instance is constructed. -/
def _wired (sub : Cls → Cls → Bool) (order : List Cls) (iter : Cls → Bool)
    (globalStrats : StratDict) (locator_file : String)
    (locators : List (String × ConvertLocator)) (cs : ClassState Cls)
    (root : Option Elem) : Except WireError (ClassState Cls × WInstance) :=
  match wireCls sub order iter globalStrats locator_file locators cs with
  | .error e => .error e
  | .ok cs2 =>
      match constructAndLabel cs2 root with
      | .error msg => .error (.pyError msg)
      | .ok r => .ok r

/-- The strategy dict an instance observes through `self.strategies`: its own
instance-dict entry when present, otherwise the class attribute. -/
def observedStrategies (cs : ClassState Cls) (self : WInstance) : Option StratDict :=
  match self.ownStrategies with
  | some d => some d
  | none => cs.strategies

/-- Runtime behaviour of the getter installed for a wired field:
`_cached_getter` around `_wired_getter(field_cls, _convert_locator(...))`.
`strats` is the strategy dict the owning instance observes, `elemM` and
`elemsM` are its `element` and `elements` methods (their calls are logged in
the trace), and `isinst`/`construct` model `__convert_entity` for the field's
class. A cached value is returned as is; otherwise the locator is resolved
through the strategy table, the element (or collection) is fetched, converted,
and cached under `__cached_<field>`. -/
def propGet (br : Browser) (strats : StratDict) (elemM : Locator → Elem)
    (elemsM : Locator → Elem) (isinst : Elem → Bool)
    (construct : Elem → Option Elem) (p : WiredProp Cls) (self : WInstance)
    (tr : Trace) : Except String (Elem × WInstance × Trace) :=
  match dictGet self.cache ("__cached_" ++ p.field_name) with
  | some e => .ok (e, self, tr)
  | none =>
      match _convert br strats p.loc.strategy p.loc.selector with
      | .error msg => .error msg
      | .ok loc =>
          let (raw, tr2) :=
            if p.isIter then
              (elemsM loc, { tr with collCalls := tr.collCalls ++ [loc] })
            else
              (elemM loc, { tr with elemCalls := tr.elemCalls ++ [loc] })
          match __convert_entity isinst construct raw with
          | .error msg => .error msg
          | .ok e =>
              .ok (e, { self with cache := dictSet self.cache ("__cached_" ++ p.field_name) e },
                   tr2)

/-- A method registered through `register_setter`: an ordinary assignment
function (modelled by its effect on the call log) or the `_read_only` function
registered by `register_without_setter`, which raises on every call. -/
inductive SetterMethod
  | fnc (run : Elem → String → Trace → Trace)
  | readOnly

/-- `register_setter._real_setter`: a `None` value short-circuits before the
field is even read (returning the `__do_nothing` function, which the property
protocol discards); otherwise the field is resolved through `getattr` — that
is, through the property getter `propGet` — and the wrapped method is applied
to it. -/
def _real_setter (br : Browser) (strats : StratDict) (elemM : Locator → Elem)
    (elemsM : Locator → Elem) (isinst : Elem → Bool)
    (construct : Elem → Option Elem) (method : SetterMethod) (p : WiredProp Cls)
    (value : Option String) (self : WInstance) (tr : Trace) :
    Except String (WInstance × Trace) :=
  match value with
  | none => .ok (self, tr)
  | some v =>
      match propGet br strats elemM elemsM isinst construct p self tr with
      | .error msg => .error msg
      | .ok (field, self2, tr2) =>
          match method with
          | .readOnly => .error "RuntimeWarning: cannot assign to field of this class"
          | .fnc run => .ok (self2, run field v tr2)

/-- The property setter installed by `_to_property`: `__property_setter(cls)`
looks the inner setter up in `__WIRED_CLASS_SETTERS` at assignment time and
applies it to `(self, value, field_name)`. -/
def propSet (br : Browser) (strats : StratDict) (elemM : Locator → Elem)
    (elemsM : Locator → Elem) (isinst : Elem → Bool)
    (construct : Elem → Option Elem) (setters : List (Cls × SetterMethod))
    (p : WiredProp Cls) (value : Option String) (self : WInstance) (tr : Trace) :
    Except String (WInstance × Trace) :=
  match dictGet setters p.setter_cls with
  | none => .error "KeyError: class has no registered setter"
  | some method =>
      _real_setter br strats elemM elemsM isinst construct method p value self tr

end Wiring

/-! ### Invariants referred to by the registry theorems -/

/-- The order invariant of `__WIRED_CLASS_ORDER`: no duplicates, and no entry
is a (proper or improper) subclass of an earlier entry — subtypes come first. -/
def OrderInv {Cls : Type} (sub : Cls → Cls → Bool) (l : List Cls) : Prop :=
  l.Nodup ∧ l.Pairwise (fun a b => sub b a = false)

/-- Well-formedness of the whole registry pair: the order list satisfies
`OrderInv` and holds exactly the keys of the setter dict. -/
def RegWF {Cls S : Type} [DecidableEq Cls] (sub : Cls → Cls → Bool)
    (st : SetterRegistry Cls S) : Prop :=
  OrderInv sub st.order ∧ ∀ x : Cls, (x ∈ st.order ↔ (dictGet st.setters x).isSome = true)

/-! ### Concrete data used by the witnesses -/

/-- A browser oracle whose elements are identified by their locators and that
reports no attributes. -/
def exBrowser : Browser := ⟨fun _ loc => .fromLocator loc, fun _ _ => none⟩

/-- A concrete registered assignment method that logs its invocation. -/
def exSetterMethod : SetterMethod :=
  .fnc (fun e v tr => { tr with setCalls := tr.setCalls ++ [(e, v)] })

/-- A concrete wired-field property over string-named classes, as compiled from
the delimited source line `search:css:button`. -/
def exProp : WiredProp String :=
  ⟨"search", "SeleneElement", ⟨"css", "button"⟩, false, "SeleneElement"⟩

/-- A fresh instance with an empty cache and no root element. -/
def exSelf : WInstance := ⟨none, none, []⟩

/-- An empty call log. -/
def exTrace : Trace := ⟨[], [], []⟩

/-- The class state produced by wiring the one-field example class of the C6
witness. -/
def exC6Wired : ClassState String :=
  ⟨"Page", some "Page", [("search", "SeleneElement")],
   [("search", ClassAttr.prop ⟨"search", "SeleneElement", ⟨"css", "button"⟩, false,
       "SeleneElement"⟩)],
   some _STRATEGIES⟩

/-- An unwired class declaring a field `extra: Widget` that has no entry in its
locator source. -/
def exC7cs : ClassState String := ⟨"Page", none, [("extra", "Widget")], [], none⟩

/-- A root element for the first constructed instance in the C10 scenario. -/
def exRoot : Elem := .fromLocator ("css selector", "root1")

/-- An already-wired class whose `strategies` class attribute is the snapshot
of the default global strategies. -/
def exC10Class : ClassState String :=
  ⟨"Page", some "Page", [("search", "SeleneElement")],
   [("search", ClassAttr.prop exProp)], some _STRATEGIES⟩

/-- The class-level strategy dict after the first instance (root `exRoot`) is
constructed: only the "label" entry differs from the snapshot. -/
def exStrats1 : StratDict :=
  [("id", .fn .gl_by_id), ("name", .fn .gl_by_name),
   ("label", .fn (.labelClosure (some exRoot))),
   ("text", .fn .gl_by_text), ("partial", .fn .gl_by_partial_text),
   ("link", .fn .gl_by_link_text), ("css", .fn .gl_by_css)]

/-- The class-level strategy dict after the second instance (no root element)
is constructed. -/
def exStrats2 : StratDict :=
  [("id", .fn .gl_by_id), ("name", .fn .gl_by_name),
   ("label", .fn (.labelClosure none)),
   ("text", .fn .gl_by_text), ("partial", .fn .gl_by_partial_text),
   ("link", .fn .gl_by_link_text), ("css", .fn .gl_by_css)]

/-- The class state after the first construction of the C10 scenario. -/
def exC10Class1 : ClassState String := { exC10Class with strategies := some exStrats1 }

/-- The class state after the second construction of the C10 scenario. -/
def exC10Class2 : ClassState String := { exC10Class with strategies := some exStrats2 }

/-- The first constructed instance (root element `exRoot`, no instance-level
`strategies` entry of its own). -/
def exInst1 : WInstance := ⟨none, some exRoot, []⟩

/-- The second constructed instance (no root element). -/
def exInst2 : WInstance := ⟨none, none, []⟩

/-- The element found for the example field: located by `(css selector, button)`. -/
def exElemFound : Elem := .fromLocator ("css selector", "button")

/-- The example instance after its first access to the example field: the
element is cached under `__cached_search`. -/
def exSelfCached : WInstance := { exSelf with cache := dictSet exSelf.cache ("__cached_" ++ exProp.field_name) exElemFound }

/-- The example call log after the first access: exactly one `element` call. -/
def exTraceAfter : Trace := { exTrace with elemCalls := exTrace.elemCalls ++ [("css selector", "button")] }

/-- The class state after wiring the C2 example: the `extra` attribute is bound
to Python `None` because no registered setter class matches `Widget`. -/
def exC2Result : ClassState String :=
  ⟨"Page", some "Page", [("extra", "Widget")], [("extra", ClassAttr.pynone)],
   some _STRATEGIES⟩

/-- A concrete subclass relation on three classes for the registry witnesses:
class `0` is a proper subclass of class `1`, class `2` is unrelated. -/
def exSub : Fin 3 → Fin 3 → Bool := fun a b => a == b || (a == 0 && b == 1)

/-- Registration calls for the registry witnesses: the supertype `1` first,
then its subtype `0` (payloads stand for the wrapped setter closures). -/
def exOps : List (Fin 3 × String) := [(1, "setA"), (0, "setB")]

/-! ### Lemmas about the dict model -/

theorem dictGet_dictSet_self {α β : Type} [DecidableEq α] (d : List (α × β))
    (k : α) (v : β) : dictGet (dictSet d k v) k = some v := by
  induction d with
  | nil => simp [dictGet, dictSet]
  | cons p rest ih =>
      obtain ⟨k', v'⟩ := p
      by_cases hk : k' = k
      · subst hk
        simp [dictGet, dictSet]
      · simp only [dictSet, if_neg hk]
        simpa [dictGet, hk] using ih

theorem dictGet_dictSet_ne {α β : Type} [DecidableEq α] (d : List (α × β))
    (k k' : α) (v : β) (h : k ≠ k') :
    dictGet (dictSet d k v) k' = dictGet d k' := by
  induction d with
  | nil => simp [dictGet, dictSet, h]
  | cons p rest ih =>
      obtain ⟨k0, v0⟩ := p
      by_cases hk : k0 = k
      · subst hk
        simp [dictGet, dictSet, h]
      · simp only [dictSet, if_neg hk]
        by_cases hk' : k0 = k'
        · subst hk'
          simp [dictGet]
        · simpa [dictGet, hk'] using ih

/-! ### C1: the module-level `register_strategy` never registers anything -/

/-- **C1** (code bug). The claim states a registration round trip: after
`register_strategy(n, f)`, resolving strategy `n` applies `f`. In the source,
`register_strategy` calls `_STRATEGIES.update({name, strategy})` with a *set*
literal instead of the dict `{name: strategy}`: whatever order the two set
elements are iterated in, the update raises (TypeError on the function element,
or ValueError on a string whose length is not 2), and the entry for `name` is
never written, so the round trip fails for every name, function and selector. -/
theorem register_strategy_raises_and_never_binds (d : StratDict) (name : String)
    (strategy : GetLoc) (firstIsName : Bool) :
    ((register_strategy d name strategy firstIsName).2).isSome = true
    ∧ dictGet (register_strategy d name strategy firstIsName).1 name = dictGet d name := by
  cases firstIsName with
  | false => exact ⟨rfl, rfl⟩
  | true =>
      obtain ⟨cs⟩ := name
      match cs with
      | [] => exact ⟨rfl, rfl⟩
      | [a] => exact ⟨rfl, rfl⟩
      | a :: b :: c :: rest => exact ⟨rfl, rfl⟩
      | [a, b] =>
          refine ⟨rfl, ?_⟩
          show dictGet (dictSet d (String.mk [a]) (.pystr (String.mk [b]))) (String.mk [a, b])
              = dictGet d (String.mk [a, b])
          apply dictGet_dictSet_ne
          intro hcontra
          have hdata : ([a] : List Char) = [a, b] := congrArg String.data hcontra
          simp at hdata

/-! ### C3: the structured-format loader cannot normalize anything -/

/-- **C3** (code bug). The claim requires the single-entry-mapping form and the
bare-string form of a structured entry to normalize to the same representation
as the delimited loader's (field name to locator-resolving closure). In the
source, `__parse_yml` iterates `mappings.items` — the bound method object, the
call parentheses are missing — raising TypeError for every loaded mapping, so
the mapping form is never normalized; and even `_parse_yml_entry` on a bare
string raises AttributeError (`str` has no `.items`), while the delimited
loader really does produce the closure data the claim describes. -/
theorem yml_loader_never_normalizes :
    parse_yml [("button", .ymap [("id", "submit")])]
        = .error "TypeError: builtin function or method object is not iterable"
    ∧ _parse_yml_entry (.ystr "id:submit")
        = .error "AttributeError: str object has no attribute items"
    ∧ parse_csv [["button", "id", "submit"]] = .ok [("button", ⟨"id", "submit"⟩)] :=
  ⟨rfl, rfl, rfl⟩

/-! ### C9: assigning `None` is a no-op -/

/-- **C9** (confirmed). For every bound field whose setter class has a
registered inner setter, assigning `None` through the installed property setter
returns successfully, leaves the instance (hence its cached element) unchanged,
and leaves the call log unchanged: `_real_setter` short-circuits on `None`
before reading the field or invoking the registered assignment method. -/
theorem none_assignment_is_noop {Cls : Type} [DecidableEq Cls] (br : Browser)
    (strats : StratDict) (elemM elemsM : Locator → Elem) (isinst : Elem → Bool)
    (construct : Elem → Option Elem) (setters : List (Cls × SetterMethod))
    (p : WiredProp Cls) (self : WInstance) (tr : Trace) (method : SetterMethod)
    (h : dictGet setters p.setter_cls = some method) :
    propSet br strats elemM elemsM isinst construct setters p none self tr
      = .ok (self, tr) := by
  simp [propSet, h, _real_setter]

theorem none_assignment_is_noop_witness :
    dictGet [("SeleneElement", exSetterMethod)] exProp.setter_cls = some exSetterMethod
    ∧ propSet exBrowser _STRATEGIES Elem.fromLocator Elem.fromLocator
        (fun _ => true) (fun e => some e) [("SeleneElement", exSetterMethod)]
        exProp none exSelf exTrace = .ok (exSelf, exTrace) :=
  ⟨rfl, none_assignment_is_noop exBrowser _STRATEGIES Elem.fromLocator Elem.fromLocator
      (fun _ => true) (fun e => some e) [("SeleneElement", exSetterMethod)]
      exProp exSelf exTrace exSetterMethod rfl⟩

/-! ### C6: rebinding an already-wired class is a no-op -/

/-- After a successful `_wire_cls`, the `__wired__` marker equals the class's
own name (either it already did, or the transition just set it). -/
theorem wireCls_marker {Cls : Type} [DecidableEq Cls] (sub : Cls → Cls → Bool)
    (order : List Cls) (iter : Cls → Bool) (g : StratDict) (lf : String)
    (locs : List (String × ConvertLocator)) (cs cs' : ClassState Cls)
    (h : wireCls sub order iter g lf locs cs = .ok cs') :
    cs'.wiredMarker = some cs'.name := by
  unfold wireCls at h
  split at h
  · next hcond =>
      cases h
      exact hcond
  · next hcond =>
      split at h
      · cases h
      · next cs2 heq =>
          cases h
          rfl

/-- **C6** (confirmed). For every class on which the binding transition has
succeeded, applying the transition again — with any resource arguments and any
registry state — performs no work: it returns the class state unchanged, so no
property is installed or removed and the set of installed properties is
identical. The marker attribute set by the first transition equals the class's
own name and triggers the early return. -/
theorem rebinding_is_noop {Cls : Type} [DecidableEq Cls] (sub : Cls → Cls → Bool)
    (order : List Cls) (iter : Cls → Bool) (g : StratDict) (lf : String)
    (locs : List (String × ConvertLocator)) (sub2 : Cls → Cls → Bool)
    (order2 : List Cls) (iter2 : Cls → Bool) (g2 : StratDict) (lf2 : String)
    (locs2 : List (String × ConvertLocator)) (cs cs' : ClassState Cls)
    (h : wireCls sub order iter g lf locs cs = .ok cs') :
    wireCls sub2 order2 iter2 g2 lf2 locs2 cs' = .ok cs' := by
  have hm := wireCls_marker sub order iter g lf locs cs cs' h
  unfold wireCls
  simp [hm]

theorem rebinding_is_noop_witness :
    wireCls (fun a b => a == b) ["SeleneElement"] (fun _ => false) _STRATEGIES
        "test.csv" [("search", ⟨"css", "button"⟩)]
        ⟨"Page", none, [("search", "SeleneElement")], [], none⟩ = .ok exC6Wired
    ∧ wireCls (fun a b => a == b) ["SeleneElement"] (fun _ => false) _STRATEGIES
        "test.csv" [("search", ⟨"css", "button"⟩)] exC6Wired = .ok exC6Wired :=
  ⟨rfl, rebinding_is_noop (fun a b => a == b) ["SeleneElement"] (fun _ => false)
      _STRATEGIES "test.csv" [("search", ⟨"css", "button"⟩)]
      (fun a b => a == b) ["SeleneElement"] (fun _ => false) _STRATEGIES
      "test.csv" [("search", ⟨"css", "button"⟩)]
      ⟨"Page", none, [("search", "SeleneElement")], [], none⟩ exC6Wired (by rfl)⟩

/-! ### C7: a missing locator entry aborts binding before construction -/

/-- Setting an attribute leaves `hasattr` for other attribute names unchanged. -/
theorem hasattrCS_dictSet_ne {Cls : Type} [DecidableEq Cls] (cs : ClassState Cls)
    (a x : String) (v : ClassAttr Cls) (h : a ≠ x) :
    hasattrCS { cs with attrs := dictSet cs.attrs a v } x = hasattrCS cs x := by
  simp [hasattrCS, dictGet_dictSet_ne _ _ _ _ h]

/-- Setting an attribute makes `hasattr` true for it. -/
theorem hasattrCS_dictSet_self {Cls : Type} [DecidableEq Cls] (cs : ClassState Cls)
    (a : String) (v : ClassAttr Cls) :
    hasattrCS { cs with attrs := dictSet cs.attrs a v } a = true := by
  simp [hasattrCS, dictGet_dictSet_self]

/-- If some annotated attribute is unassigned and has no locator entry, the
wiring loop stops with `KeyError("Missing ...")` naming such an attribute. -/
theorem wireLoop_error_of_missing {Cls : Type} [DecidableEq Cls]
    (sub : Cls → Cls → Bool) (order : List Cls) (iter : Cls → Bool) (lf : String)
    (locs : List (String × ConvertLocator)) :
    ∀ (anns : List (String × Cls)) (cs : ClassState Cls),
      (∃ p ∈ anns, hasattrCS cs p.1 = false ∧ dictGet locs p.1 = none) →
      ∃ b, (∃ c, (b, c) ∈ anns) ∧ hasattrCS cs b = false ∧ dictGet locs b = none ∧
        wireLoop sub order iter lf locs anns cs = .error (.missingField b lf) := by
  intro anns
  induction anns with
  | nil =>
      intro cs h
      simp at h
  | cons hd rest ih =>
      intro cs hex
      obtain ⟨a, ac⟩ := hd
      by_cases hattr : hasattrCS cs a = true
      · have hex' : ∃ p ∈ rest, hasattrCS cs p.1 = false ∧ dictGet locs p.1 = none := by
          obtain ⟨p, hp, h1, h2⟩ := hex
          rcases List.mem_cons.mp hp with heq | hmem
          · rw [heq] at h1
            rw [hattr] at h1
            cases h1
          · exact ⟨p, hmem, h1, h2⟩
        obtain ⟨b, ⟨c, hbc⟩, h1, h2, h3⟩ := ih cs hex'
        refine ⟨b, ⟨c, List.mem_cons_of_mem _ hbc⟩, h1, h2, ?_⟩
        simpa [wireLoop, hattr] using h3
      · have hattrf : hasattrCS cs a = false := by
          simpa using hattr
        cases hloc : dictGet locs a with
        | none =>
            refine ⟨a, ⟨ac, List.mem_cons_self _ _⟩, hattrf, hloc, ?_⟩
            simp [wireLoop, hattrf, hloc]
        | some loc =>
            obtain ⟨p, hp, h1, h2⟩ := hex
            have hpa : p.1 ≠ a := by
              intro h
              rw [h, hloc] at h2
              cases h2
            have hprest : p ∈ rest := by
              rcases List.mem_cons.mp hp with heq | hmem
              · exfalso
                apply hpa
                rw [heq]
              · exact hmem
            have hex' : ∃ q ∈ rest,
                hasattrCS { cs with attrs := dictSet cs.attrs a (compiledAttr sub order iter a ac loc) } q.1 = false
                ∧ dictGet locs q.1 = none := by
              refine ⟨p, hprest, ?_, h2⟩
              rw [hasattrCS_dictSet_ne _ _ _ _ (Ne.symm hpa)]
              exact h1
            obtain ⟨b, ⟨c, hbc⟩, h1', h2', h3'⟩ := ih _ hex'
            have hba : b ≠ a := by
              intro h
              rw [h] at h1'
              rw [hasattrCS_dictSet_self] at h1'
              cases h1'
            refine ⟨b, ⟨c, List.mem_cons_of_mem _ hbc⟩, ?_, h2', ?_⟩
            · rw [hasattrCS_dictSet_ne _ _ _ _ (Ne.symm hba)] at h1'
              exact h1'
            · simpa [wireLoop, hattrf, hloc] using h3'

/-- **C7** (confirmed). For every unwired class declaring an annotated,
unassigned field with no entry in the bound locator source, the binding driver
raises the missing-field-mapping `KeyError` naming such a field, and the result
of `_wired` is that error: the instance-construction step that follows
`_wire_cls` in the driver is never reached, so no instance of the class is
constructed. -/
theorem missing_mapping_fails_before_construction {Cls : Type} [DecidableEq Cls]
    (sub : Cls → Cls → Bool) (order : List Cls) (iter : Cls → Bool)
    (gstrats : StratDict) (lf : String) (locs : List (String × ConvertLocator))
    (cs : ClassState Cls) (root : Option Elem)
    (hnm : ¬ cs.wiredMarker = some cs.name)
    (hmiss : ∃ p ∈ cs.anns, hasattrCS cs p.1 = false ∧ dictGet locs p.1 = none) :
    ∃ b, (∃ c, (b, c) ∈ cs.anns) ∧ hasattrCS cs b = false ∧ dictGet locs b = none ∧
      _wired sub order iter gstrats lf locs cs root = .error (.missingField b lf) := by
  obtain ⟨b, hbmem, hb1, hb2, hb3⟩ :=
    wireLoop_error_of_missing sub order iter lf locs cs.anns
      { cs with strategies := some gstrats } hmiss
  refine ⟨b, hbmem, hb1, hb2, ?_⟩
  simp [_wired, wireCls, hnm, hb3]

theorem missing_mapping_fails_before_construction_witness :
    (¬ exC7cs.wiredMarker = some exC7cs.name)
    ∧ (∃ p ∈ exC7cs.anns,
        hasattrCS exC7cs p.1 = false ∧ dictGet ([] : List (String × ConvertLocator)) p.1 = none)
    ∧ ∃ b, (∃ c, (b, c) ∈ exC7cs.anns) ∧ hasattrCS exC7cs b = false
        ∧ dictGet ([] : List (String × ConvertLocator)) b = none
        ∧ _wired (fun a b => a == b) ["SeleneElement"] (fun _ => false) _STRATEGIES
            "file.csv" [] exC7cs none = .error (.missingField b "file.csv") :=
  ⟨by simp [exC7cs],
   ⟨("extra", "Widget"), by simp [exC7cs], rfl, rfl⟩,
   missing_mapping_fails_before_construction (fun a b => a == b) ["SeleneElement"]
     (fun _ => false) _STRATEGIES "file.csv" [] exC7cs none (by simp [exC7cs])
     ⟨("extra", "Widget"), by simp [exC7cs], rfl, rfl⟩⟩

/-! ### C8: the first access calls `element` once, later accesses hit the cache -/

/-- **C8** (confirmed). For a bound non-collection field with no cached value,
the first property access resolves the locator through the instance's strategy
table, calls the owning instance's `element` method with exactly that locator —
the call log grows by exactly that one entry — converts and caches the result;
and on the resulting instance every further access returns the cached element
with the call log left untouched. -/
theorem first_access_calls_element_once {Cls : Type} [DecidableEq Cls]
    (br : Browser) (strats : StratDict) (elemM elemsM : Locator → Elem)
    (isinst : Elem → Bool) (construct : Elem → Option Elem) (p : WiredProp Cls)
    (self : WInstance) (tr : Trace) (g : GetLoc) (loc : Locator) (e : Elem)
    (hiter : p.isIter = false)
    (hcache : dictGet self.cache ("__cached_" ++ p.field_name) = none)
    (hstrat : dictGet strats p.loc.strategy = some (.fn g))
    (happ : applyGetLoc br g p.loc.selector = .ok loc)
    (hconv : __convert_entity isinst construct (elemM loc) = .ok e) :
    propGet br strats elemM elemsM isinst construct p self tr
      = .ok (e, { self with cache := dictSet self.cache ("__cached_" ++ p.field_name) e },
             { tr with elemCalls := tr.elemCalls ++ [loc] })
    ∧ ∀ tr2 : Trace,
        propGet br strats elemM elemsM isinst construct p
          { self with cache := dictSet self.cache ("__cached_" ++ p.field_name) e } tr2
        = .ok (e, { self with cache := dictSet self.cache ("__cached_" ++ p.field_name) e },
               tr2) := by
  constructor
  · simp [propGet, hcache, _convert, hstrat, happ, hiter, hconv]
  · intro tr2
    simp [propGet, dictGet_dictSet_self]

theorem first_access_calls_element_once_witness :
    parse_csv [["search", "css", "button"]] = .ok [("search", ⟨"css", "button"⟩)]
    ∧ exProp.isIter = false
    ∧ dictGet exSelf.cache ("__cached_" ++ exProp.field_name) = none
    ∧ dictGet _STRATEGIES exProp.loc.strategy = some (.fn .gl_by_css)
    ∧ applyGetLoc exBrowser .gl_by_css exProp.loc.selector = .ok ("css selector", "button")
    ∧ __convert_entity (fun _ => true) some (Elem.fromLocator ("css selector", "button"))
        = .ok exElemFound
    ∧ (propGet exBrowser _STRATEGIES Elem.fromLocator Elem.fromLocator (fun _ => true) some
          exProp exSelf exTrace = .ok (exElemFound, exSelfCached, exTraceAfter)
        ∧ ∀ tr2 : Trace,
            propGet exBrowser _STRATEGIES Elem.fromLocator Elem.fromLocator (fun _ => true) some
              exProp exSelfCached tr2 = .ok (exElemFound, exSelfCached, tr2)) :=
  ⟨rfl, rfl, rfl, rfl, rfl, rfl,
   first_access_calls_element_once exBrowser _STRATEGIES Elem.fromLocator Elem.fromLocator
     (fun _ => true) some exProp exSelf exTrace .gl_by_css ("css selector", "button")
     exElemFound rfl rfl rfl rfl rfl⟩

/-! ### C2: an unmatched field type does not abort binding -/

/-- Counterexample to **C2** as stated. The claim says that when no registered
setter-registry entry is a supertype of the declared field type, compiling the
field binding fails at class-definition time with an error. At this concrete
input — field `extra: Widget`, registry holding only `SeleneElement` and
`SeleneCollection`, neither related to `Widget` — `_to_property` returns Python
`None` and the binding transition completes successfully, installing `None` as
the attribute value: no error is raised at binding time. -/
theorem fail_fast_setter_resolution_refuted :
    _to_property (fun a b : String => a == b) ["SeleneElement", "SeleneCollection"]
        (fun _ => false) "extra" "Widget" ⟨"css", "button"⟩ = none
    ∧ wireCls (fun a b : String => a == b) ["SeleneElement", "SeleneCollection"]
        (fun _ => false) _STRATEGIES "file.csv" [("extra", ⟨"css", "button"⟩)] exC7cs
        = .ok exC2Result :=
  ⟨rfl, rfl⟩

/-- **C2** (corrected). Amended claim: when no registered setter-registry entry
is a supertype of (or equal to) the declared field type, `_to_property` returns
`None` and the binding driver installs `None` as the attribute value without
raising — binding compilation succeeds at class-definition time and the failure
is deferred to use time. -/
theorem unmatched_setter_type_installs_none {Cls : Type} [DecidableEq Cls]
    (sub : Cls → Cls → Bool) (order : List Cls) (iter : Cls → Bool)
    (field_name : String) (field_cls : Cls) (loc : ConvertLocator)
    (gstrats : StratDict) (lf : String) (locs : List (String × ConvertLocator))
    (cs : ClassState Cls)
    (hnosup : ∀ c ∈ order, sub field_cls c = false)
    (hanns : cs.anns = [(field_name, field_cls)])
    (hnm : ¬ cs.wiredMarker = some cs.name)
    (hattr : hasattrCS cs field_name = false)
    (hloc : dictGet locs field_name = some loc) :
    _to_property sub order iter field_name field_cls loc = none
    ∧ wireCls sub order iter gstrats lf locs cs
        = .ok { cs with strategies := some gstrats,
                        attrs := dictSet cs.attrs field_name ClassAttr.pynone,
                        wiredMarker := some cs.name } := by
  have hfind : List.find? (fun e => sub field_cls e) order = none := by
    rw [List.find?_eq_none]
    intro x hx
    simp [hnosup x hx]
  have hprop : _to_property sub order iter field_name field_cls loc = none := by
    simp [_to_property, resolveSetterCls, hfind]
  refine ⟨hprop, ?_⟩
  have hattr2 : (dictGet cs.attrs field_name).isSome = false := hattr
  simp [wireCls, hnm, hanns, wireLoop, hasattrCS, hattr2, hloc, compiledAttr, hprop]

theorem unmatched_setter_type_installs_none_witness :
    (∀ c ∈ ["SeleneElement", "SeleneCollection"], ("Widget" == c) = false)
    ∧ exC7cs.anns = [("extra", "Widget")]
    ∧ (¬ exC7cs.wiredMarker = some exC7cs.name)
    ∧ hasattrCS exC7cs "extra" = false
    ∧ dictGet [("extra", (⟨"css", "button"⟩ : ConvertLocator))] "extra" = some ⟨"css", "button"⟩
    ∧ (_to_property (fun a b : String => a == b) ["SeleneElement", "SeleneCollection"]
          (fun _ => false) "extra" "Widget" ⟨"css", "button"⟩ = none
        ∧ wireCls (fun a b : String => a == b) ["SeleneElement", "SeleneCollection"]
            (fun _ => false) _STRATEGIES "file.csv" [("extra", ⟨"css", "button"⟩)] exC7cs
          = .ok { exC7cs with strategies := some _STRATEGIES,
                              attrs := dictSet exC7cs.attrs "extra" ClassAttr.pynone,
                              wiredMarker := some exC7cs.name }) :=
  ⟨by decide, rfl, by simp [exC7cs], rfl, rfl,
   unmatched_setter_type_installs_none (fun a b : String => a == b)
     ["SeleneElement", "SeleneCollection"] (fun _ => false) "extra" "Widget"
     ⟨"css", "button"⟩ _STRATEGIES "file.csv" [("extra", ⟨"css", "button"⟩)] exC7cs
     (by decide) rfl (by simp [exC7cs]) rfl rfl⟩

/-! ### C10: the per-instance label strategy mutates the shared class dict -/

/-- **C10** (code bug). The claim says the post-instantiation registration of
the "label" strategy changes only that one instance's strategy table, leaving
other instances of the class unaffected. In the code, `self.strategies` finds
the class-level dict (the instance has no entry of its own) and mutates it in
place, despite `Wireable.register_strategy`'s docstring "only for this object".
Concretely: after instance 1 (root `exRoot`) is constructed, the table it
observes maps "label" to a closure over its root; constructing instance 2 (no
root) rebinds "label" in that same shared table to a closure over no root, so
the strategy observed by instance 1 has changed — while every other strategy
name indeed stays bound as in the class-level snapshot. -/
theorem label_strategy_mutates_shared_class_dict :
    constructAndLabel exC10Class (some exRoot) = .ok (exC10Class1, exInst1)
    ∧ constructAndLabel exC10Class1 none = .ok (exC10Class2, exInst2)
    ∧ exInst1.ownStrategies = none
    ∧ observedStrategies exC10Class1 exInst1 = some exStrats1
    ∧ dictGet exStrats1 "label" = some (.fn (.labelClosure (some exRoot)))
    ∧ observedStrategies exC10Class2 exInst1 = some exStrats2
    ∧ dictGet exStrats2 "label" = some (.fn (.labelClosure none))
    ∧ (some (StratVal.fn (.labelClosure none))
        ≠ some (StratVal.fn (.labelClosure (some exRoot))))
    ∧ dictGet exStrats2 "id" = dictGet _STRATEGIES "id"
    ∧ dictGet exStrats2 "name" = dictGet _STRATEGIES "name"
    ∧ dictGet exStrats2 "text" = dictGet _STRATEGIES "text"
    ∧ dictGet exStrats2 "partial" = dictGet _STRATEGIES "partial"
    ∧ dictGet exStrats2 "link" = dictGet _STRATEGIES "link"
    ∧ dictGet exStrats2 "css" = dictGet _STRATEGIES "css" := by
  refine ⟨rfl, rfl, rfl, rfl, rfl, rfl, rfl, ?_, rfl, rfl, rfl, rfl, rfl, rfl⟩
  intro h
  simp at h

/-! ### Lemmas about the setter registry order -/

section RegistryLemmas

variable {Cls : Type} [DecidableEq Cls] {S : Type}

/-- A bubble pass permutes the list. -/
theorem bubblePass_perm (sub : Cls → Cls → Bool) :
    (l : List Cls) → List.Perm (bubblePass sub l) l
  | [] => by simp [bubblePass]
  | [c] => by simp [bubblePass]
  | a :: b :: rest => by
      by_cases h : sub b a
      · rw [bubblePass, if_pos h]
        exact ((bubblePass_perm sub (a :: rest)).cons b).trans (List.Perm.swap a b rest)
      · rw [bubblePass, if_neg h]
        exact (bubblePass_perm sub (b :: rest)).cons a

/-- `__sort_classes` permutes the list. -/
theorem sortClasses_perm (sub : Cls → Cls → Bool) :
    (fuel : Nat) → (l : List Cls) → List.Perm (sortClasses sub fuel l) l
  | 0, l => List.Perm.refl l
  | fuel + 1, l => by
      rw [sortClasses]
      split
      · exact List.Perm.refl l
      · exact (sortClasses_perm sub fuel (bubblePass sub l)).trans (bubblePass_perm sub l)

/-- `__sort_classes` leaves an already-sorted list unchanged. -/
theorem sortClasses_of_sorted (sub : Cls → Cls → Bool) (fuel : Nat) (l : List Cls)
    (h : _is_sorted sub none l = true) : sortClasses sub fuel l = l := by
  cases fuel with
  | zero => rfl
  | succ n => simp [sortClasses, h]

/-- A list whose pairs satisfy the order invariant passes the adjacent-pair
check of `_is_sorted`, whatever the initial previous element is, provided the
head is not a subclass of it. -/
theorem is_sorted_of_pairwise (sub : Cls → Cls → Bool) :
    (l : List Cls) → (p : Option Cls) →
      l.Pairwise (fun a b => sub b a = false) →
      (∀ q h, p = some q → l.head? = some h → sub h q = false) →
      _is_sorted sub p l = true
  | [], p, _, _ => by cases p <;> rfl
  | c :: rest, p, hpw, hhd => by
      have hpw' := List.pairwise_cons.mp hpw
      have hrec : _is_sorted sub (some c) rest = true := by
        refine is_sorted_of_pairwise sub rest (some c) hpw'.2 ?_
        intro q h hq hh
        cases hq
        exact hpw'.1 h (List.mem_of_mem_head? hh)
      cases p with
      | none =>
          rw [_is_sorted]
          exact hrec
      | some q =>
          rw [_is_sorted, hhd q c rfl rfl]
          simpa using hrec

/-- Membership in the result of the insert-before-first-superclass step. -/
theorem mem_insertBeforeFirstSuper (sub : Cls → Cls → Bool) (cls : Cls) :
    (l : List Cls) → ∀ x : Cls,
      (x ∈ insertBeforeFirstSuper sub cls l ↔ (x = cls ∧ l.any (sub cls) = true) ∨ x ∈ l)
  | [] => by simp [insertBeforeFirstSuper]
  | e :: rest => by
      intro x
      by_cases h : sub cls e
      · rw [insertBeforeFirstSuper, if_pos h]
        constructor
        · intro hx
          rcases List.mem_cons.mp hx with rfl | hx2
          · exact Or.inl ⟨rfl, by simp [h]⟩
          · exact Or.inr hx2
        · rintro (⟨rfl, _⟩ | hx2)
          · exact List.mem_cons_self _ _
          · exact List.mem_cons_of_mem _ hx2
      · rw [insertBeforeFirstSuper, if_neg h]
        have hb : sub cls e = false := by simpa using h
        have hmem := mem_insertBeforeFirstSuper sub cls rest x
        constructor
        · intro hx
          rcases List.mem_cons.mp hx with rfl | hx2
          · exact Or.inr (List.mem_cons_self _ _)
          · rcases hmem.mp hx2 with ⟨rfl, hany⟩ | hxr
            · exact Or.inl ⟨rfl, by simp [hb, hany]⟩
            · exact Or.inr (List.mem_cons_of_mem _ hxr)
        · rintro (⟨rfl, hany⟩ | hx2)
          · have hany' : rest.any (sub x) = true := by simpa [hb] using hany
            exact List.mem_cons_of_mem _ (hmem.mpr (Or.inl ⟨rfl, hany'⟩))
          · rcases List.mem_cons.mp hx2 with rfl | hxr
            · exact List.mem_cons_self _ _
            · exact List.mem_cons_of_mem _ (hmem.mpr (Or.inr hxr))

/-- Inserting a fresh class before its first superclass preserves the pairwise
order invariant (subclass relation assumed transitive and antisymmetric). -/
theorem pairwise_insertBeforeFirstSuper (sub : Cls → Cls → Bool)
    (htrans : ∀ a b c, sub a b = true → sub b c = true → sub a c = true)
    (hanti : ∀ a b, sub a b = true → sub b a = true → a = b) (cls : Cls) :
    (l : List Cls) → cls ∉ l → l.Pairwise (fun a b => sub b a = false) →
      (insertBeforeFirstSuper sub cls l).Pairwise (fun a b => sub b a = false)
  | [], _, _ => by simp [insertBeforeFirstSuper]
  | e :: rest, hnot, hpw => by
      obtain ⟨he, hrest⟩ := List.pairwise_cons.mp hpw
      by_cases h : sub cls e
      · rw [insertBeforeFirstSuper, if_pos h]
        refine List.pairwise_cons.mpr ⟨?_, hpw⟩
        intro x hx
        cases hb : sub x cls with
        | false => rfl
        | true =>
            exfalso
            have hxe : sub x e = true := htrans x cls e hb h
            rcases List.mem_cons.mp hx with rfl | hxr
            · have hec : x = cls := hanti x cls hb h
              exact hnot (hec ▸ List.mem_cons_self x rest)
            · have := he x hxr
              rw [hxe] at this
              cases this
      · rw [insertBeforeFirstSuper, if_neg h]
        refine List.pairwise_cons.mpr ⟨?_, ?_⟩
        · intro x hx
          rcases (mem_insertBeforeFirstSuper sub cls rest x).mp hx with ⟨rfl, _⟩ | hxr
          · simpa using h
          · exact he x hxr
        · exact pairwise_insertBeforeFirstSuper sub htrans hanti cls rest
            (fun hc => hnot (List.mem_cons_of_mem _ hc)) hrest

/-- Inserting a fresh class preserves `Nodup`. -/
theorem nodup_insertBeforeFirstSuper (sub : Cls → Cls → Bool) (cls : Cls) :
    (l : List Cls) → cls ∉ l → l.Nodup → (insertBeforeFirstSuper sub cls l).Nodup
  | [], _, _ => by simp [insertBeforeFirstSuper]
  | e :: rest, hnot, hnd => by
      obtain ⟨hne, hndr⟩ := List.nodup_cons.mp hnd
      by_cases h : sub cls e
      · rw [insertBeforeFirstSuper, if_pos h]
        exact List.nodup_cons.mpr ⟨hnot, hnd⟩
      · rw [insertBeforeFirstSuper, if_neg h]
        refine List.nodup_cons.mpr ⟨?_, nodup_insertBeforeFirstSuper sub cls rest
          (fun hc => hnot (List.mem_cons_of_mem _ hc)) hndr⟩
        intro hmem
        rcases (mem_insertBeforeFirstSuper sub cls rest e).mp hmem with ⟨heq, _⟩ | hmr
        · exact hnot (heq ▸ List.mem_cons_self e rest)
        · exact hne hmr

/-- `_register_class` preserves the order invariant. -/
theorem orderInv_register (sub : Cls → Cls → Bool)
    (htrans : ∀ a b c, sub a b = true → sub b c = true → sub a c = true)
    (hanti : ∀ a b, sub a b = true → sub b a = true → a = b)
    (st : SetterRegistry Cls S) (c : Cls) (s : S) (h : OrderInv sub st.order) :
    OrderInv sub (_register_class sub st c s).order := by
  obtain ⟨hnd, hpw⟩ := h
  have hsorted : _is_sorted sub none st.order = true :=
    is_sorted_of_pairwise sub st.order none hpw (by intro q hh hq _; cases hq)
  unfold _register_class
  rw [sortClasses_of_sorted sub _ _ hsorted]
  by_cases hc : c ∈ st.order
  · rw [if_pos hc]
    exact ⟨hnd, hpw⟩
  · rw [if_neg hc]
    by_cases hsub : _is_subclass sub c st.order = true
    · rw [if_pos hsub]
      exact ⟨nodup_insertBeforeFirstSuper sub c st.order hc hnd,
        pairwise_insertBeforeFirstSuper sub htrans hanti c st.order hc hpw⟩
    · rw [if_neg hsub]
      have hany : ∀ a ∈ st.order, sub c a = false := by
        intro a ha
        cases hb : sub c a with
        | false => rfl
        | true =>
            exfalso
            apply hsub
            simp only [_is_subclass, List.any_eq_true]
            exact ⟨a, ha, hb⟩
      constructor
      · show (st.order ++ [c]).Nodup
        rw [List.nodup_append]
        refine ⟨hnd, List.nodup_singleton c, ?_⟩
        intro a ha hac
        rw [List.mem_singleton] at hac
        exact hc (hac ▸ ha)
      · show (st.order ++ [c]).Pairwise (fun a b => sub b a = false)
        rw [List.pairwise_append]
        refine ⟨hpw, List.pairwise_singleton _ c, ?_⟩
        intro a ha b hb
        rw [List.mem_singleton] at hb
        subst hb
        exact hany a ha

/-- The class just registered is a member of the resulting order list. -/
theorem mem_register_self (sub : Cls → Cls → Bool) (st : SetterRegistry Cls S)
    (c : Cls) (s : S) : c ∈ (_register_class sub st c s).order := by
  unfold _register_class
  generalize sortClasses sub (st.order.length * st.order.length + 1) st.order = l
  by_cases hc : c ∈ l
  · rw [if_pos hc]
    exact hc
  · rw [if_neg hc]
    by_cases hsub : _is_subclass sub c l = true
    · rw [if_pos hsub]
      refine (mem_insertBeforeFirstSuper sub c l c).mpr (Or.inl ⟨rfl, ?_⟩)
      simpa [_is_subclass] using hsub
    · rw [if_neg hsub]
      exact List.mem_append_right _ (List.mem_singleton_self c)

/-- Registration keeps every previously registered class in the order list. -/
theorem mem_register_mono (sub : Cls → Cls → Bool) (st : SetterRegistry Cls S)
    (c : Cls) (s : S) (x : Cls) (hx : x ∈ st.order) :
    x ∈ (_register_class sub st c s).order := by
  unfold _register_class
  have hxs : x ∈ sortClasses sub (st.order.length * st.order.length + 1) st.order :=
    ((sortClasses_perm sub _ _).mem_iff).mpr hx
  generalize hl : sortClasses sub (st.order.length * st.order.length + 1) st.order = l
  rw [hl] at hxs
  by_cases hc : c ∈ l
  · rw [if_pos hc]
    exact hxs
  · rw [if_neg hc]
    by_cases hsub : _is_subclass sub c l = true
    · rw [if_pos hsub]
      exact (mem_insertBeforeFirstSuper sub c l x).mpr (Or.inr hxs)
    · rw [if_neg hsub]
      exact List.mem_append_left _ hxs

/-- Any registration sequence preserves the order invariant. -/
theorem applyOps_orderInv (sub : Cls → Cls → Bool)
    (htrans : ∀ a b c, sub a b = true → sub b c = true → sub a c = true)
    (hanti : ∀ a b, sub a b = true → sub b a = true → a = b) :
    ∀ (ops : List (Cls × S)) (st : SetterRegistry Cls S),
      OrderInv sub st.order → OrderInv sub (applyOps sub st ops).order
  | [], _, h => h
  | (c, s) :: rest, st, h =>
      applyOps_orderInv sub htrans hanti rest _ (orderInv_register sub htrans hanti st c s h)

/-- Registration sequences keep existing order entries. -/
theorem applyOps_mem (sub : Cls → Cls → Bool) :
    ∀ (ops : List (Cls × S)) (st : SetterRegistry Cls S) (x : Cls),
      x ∈ st.order → x ∈ (applyOps sub st ops).order
  | [], _, _, hx => hx
  | (c, s) :: rest, st, x, hx =>
      applyOps_mem sub rest _ x (mem_register_mono sub st c s x hx)

/-- Every class named in a registration sequence ends up in the order list. -/
theorem applyOps_mem_ops (sub : Cls → Cls → Bool) :
    ∀ (ops : List (Cls × S)) (st : SetterRegistry Cls S) (x : Cls),
      x ∈ ops.map Prod.fst → x ∈ (applyOps sub st ops).order
  | [], _, x, hx => by cases hx
  | (c, s) :: rest, st, x, hx => by
      rw [List.map_cons] at hx
      rcases List.mem_cons.mp hx with heq | hmem
      · subst heq
        exact applyOps_mem sub rest _ x (mem_register_self sub st x s)
      · exact applyOps_mem_ops sub rest _ x hmem

/-- Under the order invariant, the `_to_property` scan for a registered class
finds exactly that class (reflexivity of the subclass relation assumed). -/
theorem resolveSetterCls_self (sub : Cls → Cls → Bool)
    (href : ∀ c, sub c c = true) :
    ∀ (l : List Cls) (B : Cls), l.Pairwise (fun a b => sub b a = false) → B ∈ l →
      resolveSetterCls sub l B = some B
  | [], B, _, hmem => absurd hmem (List.not_mem_nil B)
  | h :: t, B, hpw, hmem => by
      obtain ⟨hh, ht⟩ := List.pairwise_cons.mp hpw
      rcases List.mem_cons.mp hmem with rfl | hBt
      · rw [resolveSetterCls]
        rw [List.find?_cons_of_pos _ (by simp [href B])]
      · have hBh : sub B h = false := hh B hBt
        rw [resolveSetterCls]
        rw [List.find?_cons_of_neg _ (by simp [hBh])]
        exact resolveSetterCls_self sub href t B ht hBt

/-- `_register_class` preserves full registry well-formedness. -/
theorem regWF_register (sub : Cls → Cls → Bool)
    (htrans : ∀ a b c, sub a b = true → sub b c = true → sub a c = true)
    (hanti : ∀ a b, sub a b = true → sub b a = true → a = b)
    (st : SetterRegistry Cls S) (c : Cls) (s : S) (h : RegWF sub st) :
    RegWF sub (_register_class sub st c s) := by
  obtain ⟨⟨hnd, hpw⟩, hkeys⟩ := h
  refine ⟨orderInv_register sub htrans hanti st c s ⟨hnd, hpw⟩, ?_⟩
  have hsorted : _is_sorted sub none st.order = true :=
    is_sorted_of_pairwise sub st.order none hpw (by intro q hh hq _; cases hq)
  unfold _register_class
  rw [sortClasses_of_sorted sub _ _ hsorted]
  by_cases hc : c ∈ st.order
  · rw [if_pos hc]
    exact hkeys
  · rw [if_neg hc]
    by_cases hsub : _is_subclass sub c st.order = true
    · rw [if_pos hsub]
      intro x
      show x ∈ insertBeforeFirstSuper sub c st.order
          ↔ (dictGet (dictSet st.setters c s) x).isSome = true
      by_cases hx : x = c
      · subst hx
        rw [dictGet_dictSet_self]
        simp only [Option.isSome_some]
        constructor
        · intro _
          trivial
        · intro _
          exact (mem_insertBeforeFirstSuper sub x st.order x).mpr
            (Or.inl ⟨rfl, by simpa [_is_subclass] using hsub⟩)
      · rw [dictGet_dictSet_ne st.setters c x s (fun hh => hx hh.symm)]
        rw [mem_insertBeforeFirstSuper sub c st.order x]
        constructor
        · rintro (⟨rfl, _⟩ | hmem)
          · exact absurd rfl hx
          · exact (hkeys x).mp hmem
        · intro hh
          exact Or.inr ((hkeys x).mpr hh)
    · rw [if_neg hsub]
      intro x
      show x ∈ st.order ++ [c] ↔ (dictGet (dictSet st.setters c s) x).isSome = true
      by_cases hx : x = c
      · subst hx
        rw [dictGet_dictSet_self]
        simp only [Option.isSome_some]
        constructor
        · intro _
          trivial
        · intro _
          exact List.mem_append_right _ (List.mem_singleton_self x)
      · rw [dictGet_dictSet_ne st.setters c x s (fun hh => hx hh.symm)]
        rw [List.mem_append, List.mem_singleton]
        constructor
        · rintro (hmem | rfl)
          · exact (hkeys x).mp hmem
          · exact absurd rfl hx
        · intro hh
          exact Or.inl ((hkeys x).mpr hh)

/-- Setter dict after a registration sequence from a well-formed state: a class
that already has an entry keeps it forever (re-registration returns before the
`update`), and a fresh class receives the payload of its first registration in
the sequence. -/
theorem applyOps_setters_lookup (sub : Cls → Cls → Bool)
    (htrans : ∀ a b c, sub a b = true → sub b c = true → sub a c = true)
    (hanti : ∀ a b, sub a b = true → sub b a = true → a = b) :
    ∀ (ops : List (Cls × S)) (st : SetterRegistry Cls S), RegWF sub st → ∀ x : Cls,
      dictGet (applyOps sub st ops).setters x =
        (match dictGet st.setters x with
         | some v => some v
         | none => (ops.find? (fun o => decide (o.1 = x))).map Prod.snd)
  | [], st, hwf, x => by
      cases hv : dictGet st.setters x <;> simp [applyOps, hv]
  | (c, s) :: rest, st, hwf, x => by
      have hwf' := regWF_register sub htrans hanti st c s hwf
      have hrec := applyOps_setters_lookup sub htrans hanti rest
        (_register_class sub st c s) hwf' x
      have hsorted : _is_sorted sub none st.order = true :=
        is_sorted_of_pairwise sub st.order none hwf.1.2 (by intro q hh hq _; cases hq)
      rw [applyOps, hrec]
      by_cases hc : c ∈ st.order
      · have hsetters : (_register_class sub st c s).setters = st.setters := by
          unfold _register_class
          rw [sortClasses_of_sorted sub _ _ hsorted, if_pos hc]
        rw [hsetters]
        cases hv : dictGet st.setters x with
        | some v => rfl
        | none =>
            have hcx : c ≠ x := by
              intro hh
              subst hh
              have hmem := (hwf.2 c).mp hc
              rw [hv] at hmem
              cases hmem
            rw [List.find?_cons_of_neg _ (by simp [hcx])]
      · have hsetters : (_register_class sub st c s).setters = dictSet st.setters c s := by
          unfold _register_class
          rw [sortClasses_of_sorted sub _ _ hsorted, if_neg hc]
          by_cases hsub : _is_subclass sub c st.order = true
          · rw [if_pos hsub]
          · rw [if_neg hsub]
        rw [hsetters]
        by_cases hx : x = c
        · subst hx
          rw [dictGet_dictSet_self]
          have hnone : dictGet st.setters x = none := by
            cases hv : dictGet st.setters x with
            | none => rfl
            | some v =>
                exfalso
                exact hc ((hwf.2 x).mpr (by simp [hv]))
          rw [hnone]
          rw [List.find?_cons_of_pos _ (by simp)]
          rfl
        · rw [dictGet_dictSet_ne st.setters c x s (fun hh => hx hh.symm)]
          cases hv : dictGet st.setters x with
          | some v => rfl
          | none =>
              rw [List.find?_cons_of_neg _ (by simp [Ne.symm hx])]

end RegistryLemmas

/-! ### C5: the registry order invariant holds after every registration -/

/-- **C5** (confirmed). Starting from the empty registry (the state before the
module-level registrations of `SeleneElement` and `SeleneCollection`), after
any sequence of completed registration calls the ordered type list satisfies:
whenever one entry is a subtype of an earlier entry, the two are equal — i.e.
for any proper subtype/supertype pair among the entries, the subtype appears
first. Assumes `issubclass` is transitive and antisymmetric, as it is for
Python classes. -/
theorem registry_order_invariant {Cls S : Type} [DecidableEq Cls]
    (sub : Cls → Cls → Bool)
    (htrans : ∀ a b c, sub a b = true → sub b c = true → sub a c = true)
    (hanti : ∀ a b, sub a b = true → sub b a = true → a = b)
    (ops : List (Cls × S)) :
    (applyOps sub emptyRegistry ops).order.Pairwise
      (fun a b => sub b a = true → b = a) := by
  have h := applyOps_orderInv sub htrans hanti ops emptyRegistry
    ⟨List.nodup_nil, List.Pairwise.nil⟩
  exact h.2.imp (fun hf hsub => by rw [hf] at hsub; cases hsub)

theorem registry_order_invariant_witness :
    (∀ a b c : Fin 3, exSub a b = true → exSub b c = true → exSub a c = true)
    ∧ (∀ a b : Fin 3, exSub a b = true → exSub b a = true → a = b)
    ∧ (applyOps exSub emptyRegistry exOps).order.Pairwise
        (fun a b => exSub b a = true → b = a) :=
  ⟨by decide, by decide,
   registry_order_invariant exSub (by decide) (by decide) exOps⟩

/-! ### C4: resolution prefers the subtype, whatever the registration order -/

/-- **C4** (confirmed). For any registration sequence from the empty registry
that registers both a class `A` and a proper subtype `B` of it — in either
order, with any other registrations interleaved — the `_to_property` scan for a
field declared with class `B` selects `B`'s registry entry and never `A`'s, and
the setter stored under `B` is the payload of `B`'s first registration call.
Assumes `issubclass` is reflexive, transitive and antisymmetric. -/
theorem subtype_setter_resolution {Cls S : Type} [DecidableEq Cls]
    (sub : Cls → Cls → Bool)
    (href : ∀ c, sub c c = true)
    (htrans : ∀ a b c, sub a b = true → sub b c = true → sub a c = true)
    (hanti : ∀ a b, sub a b = true → sub b a = true → a = b)
    (ops : List (Cls × S)) (A B : Cls)
    (hBA : sub B A = true) (hne : B ≠ A)
    (hA : A ∈ ops.map Prod.fst) (hB : B ∈ ops.map Prod.fst) :
    resolveSetterCls sub (applyOps sub emptyRegistry ops).order B = some B
    ∧ resolveSetterCls sub (applyOps sub emptyRegistry ops).order B ≠ some A
    ∧ dictGet (applyOps sub emptyRegistry ops).setters B
        = (ops.find? (fun o => decide (o.1 = B))).map Prod.snd := by
  have hinv := applyOps_orderInv sub htrans hanti ops emptyRegistry
    ⟨List.nodup_nil, List.Pairwise.nil⟩
  have hmem := applyOps_mem_ops sub ops emptyRegistry B hB
  have h1 := resolveSetterCls_self sub href _ B hinv.2 hmem
  have hwf0 : RegWF sub (emptyRegistry : SetterRegistry Cls S) := by
    refine ⟨⟨List.nodup_nil, List.Pairwise.nil⟩, ?_⟩
    intro x
    simp [emptyRegistry, dictGet]
  have h3 := applyOps_setters_lookup sub htrans hanti ops emptyRegistry hwf0 B
  refine ⟨h1, ?_, by simpa [emptyRegistry, dictGet] using h3⟩
  rw [h1]
  intro hcontra
  exact hne (Option.some.inj hcontra)

theorem subtype_setter_resolution_witness :
    (∀ c : Fin 3, exSub c c = true)
    ∧ (∀ a b c : Fin 3, exSub a b = true → exSub b c = true → exSub a c = true)
    ∧ (∀ a b : Fin 3, exSub a b = true → exSub b a = true → a = b)
    ∧ exSub 0 1 = true
    ∧ (0 : Fin 3) ≠ 1
    ∧ (1 : Fin 3) ∈ exOps.map Prod.fst
    ∧ (0 : Fin 3) ∈ exOps.map Prod.fst
    ∧ (resolveSetterCls exSub (applyOps exSub emptyRegistry exOps).order 0 = some 0
        ∧ resolveSetterCls exSub (applyOps exSub emptyRegistry exOps).order 0 ≠ some 1
        ∧ dictGet (applyOps exSub emptyRegistry exOps).setters 0
            = (exOps.find? (fun o => decide (o.1 = 0))).map Prod.snd) :=
  ⟨by decide, by decide, by decide, by decide, by decide, by decide, by decide,
   subtype_setter_resolution exSub (by decide) (by decide) (by decide) exOps 1 0
     (by decide) (by decide) (by decide) (by decide)⟩

end Ocomone
